import Mathlib

/-!
Verification of the alex86emu emulation engine against its specification.

The definitions below are a shallow embedding of the Rust sources:
  * `StackPointer` and its arithmetic  — src/mem/mod.rs
  * `Registers`, `Cpu`, register access, stack push/pop, instruction
    dispatch — src/cpu/mod.rs and src/cpu/registers.rs
  * syscall handling, the execution loop and the binary-container
    entry/export resolution — src/program/mod.rs

Machine integers (`u64`, `u16`, `u32`, `usize`) are embedded as `Nat`; the
narrowing casts of the source (`as u16`, `as u32`) are explicit `% 2 ^ 16` /
`% 2 ^ 32`.  In the capacity-1024 stack arithmetic used by the `Cpu`, no
`u64` operation of the source can overflow, so no `% 2 ^ 64` reduction is
inserted there.  External collaborators (the goblin container parser, the
iced instruction decoder, UTF-8 decoding from the standard library) are
parameters of the embedded functions: the engine's own code never inspects
their internals.
-/

set_option maxHeartbeats 1000000
set_option maxRecDepth 16384

/-- Stack capacity of the emulated CPU (`STACK_SIZE` in src/cpu/mod.rs). -/
def STACK_SIZE : Nat := 1024

/-- `StackPointer` from src/mem/mod.rs: an offset into the bounded stack
buffer together with the buffer's capacity. -/
structure StackPointer where
  pointer : Nat
  stack_size : Nat
deriving Repr, DecidableEq

/-- `StackPointer::new`: normalizes the value modulo the capacity. -/
def StackPointer.new (value stack_size : Nat) : StackPointer :=
  ⟨value % stack_size, stack_size⟩

/-- `StackPointer::value`. -/
def StackPointer.value (sp : StackPointer) : Nat := sp.pointer

/-- `StackPointer::set_wrapping`. -/
def StackPointer.set_wrapping (sp : StackPointer) (value : Nat) : StackPointer :=
  ⟨value % sp.stack_size, sp.stack_size⟩

/-- `impl Add<StackPointer> for StackPointer`. -/
def StackPointer.addSP (a b : StackPointer) : StackPointer :=
  StackPointer.new (a.pointer + b.pointer) a.stack_size

/-- `impl Add<u64> for StackPointer`. -/
def StackPointer.addU64 (a : StackPointer) (x : Nat) : StackPointer :=
  StackPointer.new (a.pointer + x % a.stack_size) a.stack_size

/-- `impl Sub<StackPointer> for StackPointer` — note the source body adds
the two offsets, exactly like `Add<StackPointer>`. -/
def StackPointer.subSP (a b : StackPointer) : StackPointer :=
  StackPointer.new (a.pointer + b.pointer) a.stack_size

/-- `impl Sub<u64> for StackPointer`: the amount is first reduced modulo the
capacity, then the subtraction either happens directly or wraps from the top
of the buffer. -/
def StackPointer.subU64 (a : StackPointer) (x : Nat) : StackPointer :=
  let x := x % a.stack_size
  if x ≤ a.pointer then
    StackPointer.new (a.pointer - x) a.stack_size
  else
    StackPointer.new (a.stack_size - (x - a.pointer)) a.stack_size

/-- The `StackPointer` operations reachable through the public interface
(`new` is the entry point, modelled by the initial state below). -/
inductive SpOp where
  | setWrapping (value : Nat)
  | addU (x : Nat)
  | addP (other : StackPointer)
  | subU (x : Nat)
  | subP (other : StackPointer)
deriving Repr, DecidableEq

/-- Apply one `StackPointer` operation. -/
def SpOp.apply (sp : StackPointer) : SpOp → StackPointer
  | .setWrapping v => sp.set_wrapping v
  | .addU x => sp.addU64 x
  | .addP o => sp.addSP o
  | .subU x => sp.subU64 x
  | .subP o => sp.subSP o

/-- Offsets stay below the capacity and the capacity is preserved across any
single operation. -/
theorem SpOp.apply_lt (sp : StackPointer) (op : SpOp)
    (hc : 0 < sp.stack_size) (hp : sp.pointer < sp.stack_size) :
    (op.apply sp).pointer < sp.stack_size ∧
      (op.apply sp).stack_size = sp.stack_size := by
  cases op with
  | setWrapping v => exact ⟨Nat.mod_lt _ hc, rfl⟩
  | addU x => exact ⟨Nat.mod_lt _ hc, rfl⟩
  | addP o => exact ⟨Nat.mod_lt _ hc, rfl⟩
  | subP o => exact ⟨Nat.mod_lt _ hc, rfl⟩
  | subU x =>
    simp only [SpOp.apply, StackPointer.subU64]
    split <;> exact ⟨Nat.mod_lt _ hc, rfl⟩

/-- C4: the stack-pointer range invariant, by induction over the sequence of
operations. -/
theorem stackPointer_fold_invariant (c : Nat) (hc : 0 < c) (v : Nat)
    (ops : List SpOp) :
    (ops.foldl SpOp.apply (StackPointer.new v c)).pointer < c ∧
      (ops.foldl SpOp.apply (StackPointer.new v c)).stack_size = c := by
  suffices h : ∀ (sp : StackPointer), sp.stack_size = c → sp.pointer < c →
      (ops.foldl SpOp.apply sp).pointer < c ∧
        (ops.foldl SpOp.apply sp).stack_size = c by
    exact h _ rfl (Nat.mod_lt _ hc)
  induction ops with
  | nil => intro sp hs hp; exact ⟨hp, hs⟩
  | cons op rest ih =>
    intro sp hs hp
    have step := SpOp.apply_lt sp op (hs ▸ hc) (hs ▸ hp)
    exact ih (op.apply sp) (step.2.trans hs) (hs ▸ step.1)

/-- C3 (counterexample): from offset 0 and capacity 4, subtracting the
amount 5 (which exceeds the offset) yields offset 3, not
`capacity − (amount − offset) = 4 − 5`. -/
theorem subU64_wraparound_counterexample :
    ((StackPointer.new 0 4).subU64 5).pointer = 3 ∧
      ((((StackPointer.new 0 4).subU64 5).pointer : Int) ≠ 4 - (5 - 0)) := by
  constructor <;> decide

/-- C3 (amended): for a well-formed `StackPointer` and an amount `a` with
`offset < a ≤ capacity`, subtraction wraps to `capacity − (a − offset)`; and
for every amount the resulting offset stays inside `[0, capacity)`. -/
theorem subU64_wraparound (sp : StackPointer) (a : Nat)
    (hwf : sp.pointer < sp.stack_size) :
    (sp.pointer < a → a ≤ sp.stack_size →
      (sp.subU64 a).pointer = sp.stack_size - (a - sp.pointer)) ∧
      (sp.subU64 a).pointer < sp.stack_size := by
  have hc : 0 < sp.stack_size := by omega
  constructor
  · intro hlt hle
    rcases Nat.lt_or_ge a sp.stack_size with hcase | hcase
    · have hmod : a % sp.stack_size = a := Nat.mod_eq_of_lt hcase
      simp only [StackPointer.subU64, StackPointer.new, hmod]
      rw [if_neg (by omega)]
      show (sp.stack_size - (a - sp.pointer)) % sp.stack_size = _
      rw [Nat.mod_eq_of_lt (by omega)]
    · have ha : a = sp.stack_size := le_antisymm hle hcase
      subst ha
      simp only [StackPointer.subU64, StackPointer.new, Nat.mod_self]
      rw [if_pos (Nat.zero_le _)]
      show (sp.pointer - 0) % sp.stack_size = _
      rw [Nat.sub_zero, Nat.mod_eq_of_lt hwf]
      omega
  · simp only [StackPointer.subU64, StackPointer.new]
    split <;> exact Nat.mod_lt _ hc

/-- Witness for C3's amended theorem at offset 1, capacity 4, amount 3. -/
theorem subU64_wraparound_witness :
    ((StackPointer.new 1 4).subU64 3).pointer = 4 - (3 - 1) ∧
      ((StackPointer.new 1 4).subU64 3).pointer < 4 := by
  have h := subU64_wraparound (StackPointer.new 1 4) 3 (by decide)
  exact ⟨h.1 (by decide) (by decide), h.2⟩

/-- Witness for C4 at capacity 8 with a sample operation sequence. -/
theorem stackPointer_fold_invariant_witness :
    (([SpOp.subU 13, SpOp.addU 5, SpOp.setWrapping 100,
        SpOp.subP (StackPointer.new 3 8)].foldl SpOp.apply
          (StackPointer.new 2 8)).pointer < 8) := by
  exact (stackPointer_fold_invariant 8 (by decide) 2 _).1

/-- C10: `Sub<StackPointer>` behaves exactly like `Add<StackPointer>`: the
resulting offset is the sum of the two offsets reduced modulo the shared
capacity. -/
theorem subSP_is_addSP (a b : StackPointer) (_h : b.stack_size = a.stack_size) :
    a.subSP b = a.addSP b ∧
      (a.subSP b).pointer = (a.pointer + b.pointer) % a.stack_size := by
  exact ⟨rfl, rfl⟩

/-- Witness for C10 at offsets 3 and 2, shared capacity 4. -/
theorem subSP_is_addSP_witness :
    (StackPointer.new 3 4).subSP (StackPointer.new 2 4) =
        (StackPointer.new 3 4).addSP (StackPointer.new 2 4) ∧
      ((StackPointer.new 3 4).subSP (StackPointer.new 2 4)).pointer =
        (3 + 2) % 4 := by
  exact subSP_is_addSP (StackPointer.new 3 4) (StackPointer.new 2 4) rfl

/-- The architectural register names matched by `Cpu::get_register_u64` /
`Cpu::set_register` (src/cpu/mod.rs); `other` stands for every further
`iced_x86::Register` value, which the source sends to the
`UnimplementedRegister` fallback arm. -/
inductive Reg where
  | AL | AH | AX | EAX | RAX
  | CL | CH | CX | ECX | RCX
  | DL | DH | DX | EDX | RDX
  | BL | BH | BX | EBX | RBX
  | SPL | SP | ESP | RSP
  | BPL | BP | EBP | RBP
  | SIL | SI | ESI | RSI
  | DIL | DI | EDI | RDI
  | R8L | R8W | R8D | R8
  | R9L | R9W | R9D | R9
  | R10L | R10W | R10D | R10
  | R11L | R11W | R11D | R11
  | R12L | R12W | R12D | R12
  | R13L | R13W | R13D | R13
  | R14L | R14W | R14D | R14
  | R15L | R15W | R15D | R15
  | EIP | RIP
  | ES | CS | SS | DS | FS | GS
  | CR0 | CR1 | CR2 | CR3 | CR4 | CR5 | CR6 | CR7
  | CR8 | CR9 | CR10 | CR11 | CR12 | CR13 | CR14 | CR15
  | DR0 | DR1 | DR2 | DR3 | DR4 | DR5 | DR6 | DR7
  | DR8 | DR9 | DR10 | DR11 | DR12 | DR13 | DR14 | DR15
  | TR0 | TR1 | TR2 | TR3 | TR4 | TR5 | TR6 | TR7
  | other
deriving Repr, DecidableEq

/-- `iced_x86::Register::size()`: the register's declared width in bytes
(1 for 8-bit GPRs, 2 for 16-bit GPRs and segment registers, 4 for 32-bit
GPRs, `EIP` and the test registers, 8 for 64-bit GPRs, `RIP`, control and
debug registers). -/
def Reg.size : Reg → Nat
  | .AL | .AH | .CL | .CH | .DL | .DH | .BL | .BH
  | .SPL | .BPL | .SIL | .DIL
  | .R8L | .R9L | .R10L | .R11L | .R12L | .R13L | .R14L | .R15L => 1
  | .AX | .CX | .DX | .BX | .SP | .BP | .SI | .DI
  | .R8W | .R9W | .R10W | .R11W | .R12W | .R13W | .R14W | .R15W
  | .ES | .CS | .SS | .DS | .FS | .GS => 2
  | .EAX | .ECX | .EDX | .EBX | .ESP | .EBP | .ESI | .EDI
  | .R8D | .R9D | .R10D | .R11D | .R12D | .R13D | .R14D | .R15D
  | .EIP
  | .TR0 | .TR1 | .TR2 | .TR3 | .TR4 | .TR5 | .TR6 | .TR7 => 4
  | .RAX | .RCX | .RDX | .RBX | .RSP | .RBP | .RSI | .RDI
  | .R8 | .R9 | .R10 | .R11 | .R12 | .R13 | .R14 | .R15
  | .RIP
  | .CR0 | .CR1 | .CR2 | .CR3 | .CR4 | .CR5 | .CR6 | .CR7
  | .CR8 | .CR9 | .CR10 | .CR11 | .CR12 | .CR13 | .CR14 | .CR15
  | .DR0 | .DR1 | .DR2 | .DR3 | .DR4 | .DR5 | .DR6 | .DR7
  | .DR8 | .DR9 | .DR10 | .DR11 | .DR12 | .DR13 | .DR14 | .DR15 => 8
  | .other => 0

/-- The register names backed by the `rsp : StackPointer` slot. -/
def Reg.is_sp_backed : Reg → Bool
  | .SPL | .SP | .ESP | .RSP => true
  | _ => false

/-- The instruction opcodes distinguished by the engine
(`iced_x86::Code`); `OtherCode` stands for every opcode the source sends to
the `UnimplementedInstruction` fallback arm. -/
inductive Code where
  | Mov_r64_imm64
  | Mov_rm64_r64
  | Push_r64
  | Pushq_imm8
  | Pop_r64
  | Jmp_rel8_64
  | Xor_rm32_r32
  | Syscall
  | INVALID
  | OtherCode
deriving Repr, DecidableEq

/-- Operand kinds distinguished by the engine (`iced_x86::OpKind`):
the source only tests whether operand 0 is a register. -/
inductive OpKind where
  | Register
  | OtherKind
deriving Repr, DecidableEq

/-- The decoded-instruction record (`iced_x86::Instruction`), restricted to
the accessors the engine reads. -/
structure Instruction where
  code : Code := .INVALID
  op0_kind : OpKind := .OtherKind
  op0_register : Reg := .other
  op1_register : Reg := .other
  immediate8 : Nat := 0
  immediate64 : Nat := 0
  near_branch64 : Nat := 0
deriving Repr, DecidableEq

/-- `cpu::error::Error` from src/cpu/error.rs. -/
inductive CpuError where
  | UnimplementedRegister (register : Reg)
  | UnimplementedRegisterSize (size : Nat)
  | UnimplementedInstruction (instruction : Instruction)
  | StackOverflowRead
  | StackOverflowWrite
deriving Repr, DecidableEq

/-- `Registers` from src/cpu/registers.rs.  The `u16` segment slots and
`u32` test slots hold values below `2 ^ 16` / `2 ^ 32`; the narrowing casts
of `Cpu::set_register` are the corresponding `%` reductions.  Field
defaults give `Registers::default()`: all slots zero, `rsp` the default
`StackPointer` (both fields zero). -/
structure Registers where
  rip : Nat := 0
  rax : Nat := 0
  rbx : Nat := 0
  rcx : Nat := 0
  rdx : Nat := 0
  rbp : Nat := 0
  rsp : StackPointer := ⟨0, 0⟩
  rsi : Nat := 0
  rdi : Nat := 0
  r8 : Nat := 0
  r9 : Nat := 0
  r10 : Nat := 0
  r11 : Nat := 0
  r12 : Nat := 0
  r13 : Nat := 0
  r14 : Nat := 0
  r15 : Nat := 0
  cs : Nat := 0
  ds : Nat := 0
  ss : Nat := 0
  es : Nat := 0
  fs : Nat := 0
  gs : Nat := 0
  rflags : Nat := 0
  cr0 : Nat := 0
  cr1 : Nat := 0
  cr2 : Nat := 0
  cr3 : Nat := 0
  cr4 : Nat := 0
  cr5 : Nat := 0
  cr6 : Nat := 0
  cr7 : Nat := 0
  cr8 : Nat := 0
  cr9 : Nat := 0
  cr10 : Nat := 0
  cr11 : Nat := 0
  cr12 : Nat := 0
  cr13 : Nat := 0
  cr14 : Nat := 0
  cr15 : Nat := 0
  dr0 : Nat := 0
  dr1 : Nat := 0
  dr2 : Nat := 0
  dr3 : Nat := 0
  dr4 : Nat := 0
  dr5 : Nat := 0
  dr6 : Nat := 0
  dr7 : Nat := 0
  dr8 : Nat := 0
  dr9 : Nat := 0
  dr10 : Nat := 0
  dr11 : Nat := 0
  dr12 : Nat := 0
  dr13 : Nat := 0
  dr14 : Nat := 0
  dr15 : Nat := 0
  tr0 : Nat := 0
  tr1 : Nat := 0
  tr2 : Nat := 0
  tr3 : Nat := 0
  tr4 : Nat := 0
  tr5 : Nat := 0
  tr6 : Nat := 0
  tr7 : Nat := 0
deriving Repr, DecidableEq

/-- `Cpu` from src/cpu/mod.rs: the fixed-size stack buffer (a list of
bytes) plus the register file. -/
structure Cpu where
  stack : List Nat
  registers : Registers
deriving Repr, DecidableEq

/-- `Cpu::default()` (also `Cpu::new()`): zeroed 1024-byte stack, zeroed
registers, `rsp` initialized to offset 0 with capacity `STACK_SIZE`. -/
def Cpu.init : Cpu :=
  { stack := List.replicate STACK_SIZE 0,
    registers := { rsp := StackPointer.new 0 STACK_SIZE } }

/-- `Cpu::get_register_u64` (src/cpu/mod.rs lines 146-213). -/
def Cpu.get_register_u64 (cpu : Cpu) : Reg → Except CpuError Nat
  | .AL | .AH | .AX | .EAX | .RAX => .ok cpu.registers.rax
  | .CL | .CH | .CX | .ECX | .RCX => .ok cpu.registers.rcx
  | .DL | .DH | .DX | .EDX | .RDX => .ok cpu.registers.rdx
  | .BL | .BH | .BX | .EBX | .RBX => .ok cpu.registers.rbx
  | .SPL | .SP | .ESP | .RSP => .ok cpu.registers.rsp.pointer
  | .BPL | .BP | .EBP | .RBP => .ok cpu.registers.rbp
  | .SIL | .SI | .ESI | .RSI => .ok cpu.registers.rsi
  | .DIL | .DI | .EDI | .RDI => .ok cpu.registers.rdi
  | .R8L | .R8W | .R8D | .R8 => .ok cpu.registers.r8
  | .R9L | .R9W | .R9D | .R9 => .ok cpu.registers.r9
  | .R10L | .R10W | .R10D | .R10 => .ok cpu.registers.r10
  | .R11L | .R11W | .R11D | .R11 => .ok cpu.registers.r11
  | .R12L | .R12W | .R12D | .R12 => .ok cpu.registers.r12
  | .R13L | .R13W | .R13D | .R13 => .ok cpu.registers.r13
  | .R14L | .R14W | .R14D | .R14 => .ok cpu.registers.r14
  | .R15L | .R15W | .R15D | .R15 => .ok cpu.registers.r15
  | .EIP | .RIP => .ok cpu.registers.rip
  | .ES => .ok cpu.registers.es
  | .CS => .ok cpu.registers.cs
  | .SS => .ok cpu.registers.ss
  | .DS => .ok cpu.registers.ds
  | .FS => .ok cpu.registers.fs
  | .GS => .ok cpu.registers.gs
  | .CR0 => .ok cpu.registers.cr0
  | .CR1 => .ok cpu.registers.cr1
  | .CR2 => .ok cpu.registers.cr2
  | .CR3 => .ok cpu.registers.cr3
  | .CR4 => .ok cpu.registers.cr4
  | .CR5 => .ok cpu.registers.cr5
  | .CR6 => .ok cpu.registers.cr6
  | .CR7 => .ok cpu.registers.cr7
  | .CR8 => .ok cpu.registers.cr8
  | .CR9 => .ok cpu.registers.cr9
  | .CR10 => .ok cpu.registers.cr10
  | .CR11 => .ok cpu.registers.cr11
  | .CR12 => .ok cpu.registers.cr12
  | .CR13 => .ok cpu.registers.cr13
  | .CR14 => .ok cpu.registers.cr14
  | .CR15 => .ok cpu.registers.cr15
  | .DR0 => .ok cpu.registers.dr0
  | .DR1 => .ok cpu.registers.dr1
  | .DR2 => .ok cpu.registers.dr2
  | .DR3 => .ok cpu.registers.dr3
  | .DR4 => .ok cpu.registers.dr4
  | .DR5 => .ok cpu.registers.dr5
  | .DR6 => .ok cpu.registers.dr6
  | .DR7 => .ok cpu.registers.dr7
  | .DR8 => .ok cpu.registers.dr8
  | .DR9 => .ok cpu.registers.dr9
  | .DR10 => .ok cpu.registers.dr10
  | .DR11 => .ok cpu.registers.dr11
  | .DR12 => .ok cpu.registers.dr12
  | .DR13 => .ok cpu.registers.dr13
  | .DR14 => .ok cpu.registers.dr14
  | .DR15 => .ok cpu.registers.dr15
  | .TR0 => .ok cpu.registers.tr0
  | .TR1 => .ok cpu.registers.tr1
  | .TR2 => .ok cpu.registers.tr2
  | .TR3 => .ok cpu.registers.tr3
  | .TR4 => .ok cpu.registers.tr4
  | .TR5 => .ok cpu.registers.tr5
  | .TR6 => .ok cpu.registers.tr6
  | .TR7 => .ok cpu.registers.tr7
  | r => .error (.UnimplementedRegister r)

/-- `Cpu::set_register` (src/cpu/mod.rs lines 215-283).  Writing any alias
of a slot overwrites the whole slot; the stack-pointer aliases rebuild
`rsp` via `StackPointer::new(value, STACK_SIZE)`; segment and test slots
truncate via the `as u16` / `as u32` casts. -/
def Cpu.set_register (cpu : Cpu) (r : Reg) (value : Nat) : Except CpuError Cpu :=
  match r with
  | .AL | .AH | .AX | .EAX | .RAX => .ok { cpu with registers.rax := value }
  | .CL | .CH | .CX | .ECX | .RCX => .ok { cpu with registers.rcx := value }
  | .DL | .DH | .DX | .EDX | .RDX => .ok { cpu with registers.rdx := value }
  | .BL | .BH | .BX | .EBX | .RBX => .ok { cpu with registers.rbx := value }
  | .SPL | .SP | .ESP | .RSP =>
    .ok { cpu with registers.rsp := StackPointer.new value STACK_SIZE }
  | .BPL | .BP | .EBP | .RBP => .ok { cpu with registers.rbp := value }
  | .SIL | .SI | .ESI | .RSI => .ok { cpu with registers.rsi := value }
  | .DIL | .DI | .EDI | .RDI => .ok { cpu with registers.rdi := value }
  | .R8L | .R8W | .R8D | .R8 => .ok { cpu with registers.r8 := value }
  | .R9L | .R9W | .R9D | .R9 => .ok { cpu with registers.r9 := value }
  | .R10L | .R10W | .R10D | .R10 => .ok { cpu with registers.r10 := value }
  | .R11L | .R11W | .R11D | .R11 => .ok { cpu with registers.r11 := value }
  | .R12L | .R12W | .R12D | .R12 => .ok { cpu with registers.r12 := value }
  | .R13L | .R13W | .R13D | .R13 => .ok { cpu with registers.r13 := value }
  | .R14L | .R14W | .R14D | .R14 => .ok { cpu with registers.r14 := value }
  | .R15L | .R15W | .R15D | .R15 => .ok { cpu with registers.r15 := value }
  | .EIP | .RIP => .ok { cpu with registers.rip := value }
  | .ES => .ok { cpu with registers.es := value % 2 ^ 16 }
  | .CS => .ok { cpu with registers.cs := value % 2 ^ 16 }
  | .SS => .ok { cpu with registers.ss := value % 2 ^ 16 }
  | .DS => .ok { cpu with registers.ds := value % 2 ^ 16 }
  | .FS => .ok { cpu with registers.fs := value % 2 ^ 16 }
  | .GS => .ok { cpu with registers.gs := value % 2 ^ 16 }
  | .CR0 => .ok { cpu with registers.cr0 := value }
  | .CR1 => .ok { cpu with registers.cr1 := value }
  | .CR2 => .ok { cpu with registers.cr2 := value }
  | .CR3 => .ok { cpu with registers.cr3 := value }
  | .CR4 => .ok { cpu with registers.cr4 := value }
  | .CR5 => .ok { cpu with registers.cr5 := value }
  | .CR6 => .ok { cpu with registers.cr6 := value }
  | .CR7 => .ok { cpu with registers.cr7 := value }
  | .CR8 => .ok { cpu with registers.cr8 := value }
  | .CR9 => .ok { cpu with registers.cr9 := value }
  | .CR10 => .ok { cpu with registers.cr10 := value }
  | .CR11 => .ok { cpu with registers.cr11 := value }
  | .CR12 => .ok { cpu with registers.cr12 := value }
  | .CR13 => .ok { cpu with registers.cr13 := value }
  | .CR14 => .ok { cpu with registers.cr14 := value }
  | .CR15 => .ok { cpu with registers.cr15 := value }
  | .DR0 => .ok { cpu with registers.dr0 := value }
  | .DR1 => .ok { cpu with registers.dr1 := value }
  | .DR2 => .ok { cpu with registers.dr2 := value }
  | .DR3 => .ok { cpu with registers.dr3 := value }
  | .DR4 => .ok { cpu with registers.dr4 := value }
  | .DR5 => .ok { cpu with registers.dr5 := value }
  | .DR6 => .ok { cpu with registers.dr6 := value }
  | .DR7 => .ok { cpu with registers.dr7 := value }
  | .DR8 => .ok { cpu with registers.dr8 := value }
  | .DR9 => .ok { cpu with registers.dr9 := value }
  | .DR10 => .ok { cpu with registers.dr10 := value }
  | .DR11 => .ok { cpu with registers.dr11 := value }
  | .DR12 => .ok { cpu with registers.dr12 := value }
  | .DR13 => .ok { cpu with registers.dr13 := value }
  | .DR14 => .ok { cpu with registers.dr14 := value }
  | .DR15 => .ok { cpu with registers.dr15 := value }
  | .TR0 => .ok { cpu with registers.tr0 := value % 2 ^ 32 }
  | .TR1 => .ok { cpu with registers.tr1 := value % 2 ^ 32 }
  | .TR2 => .ok { cpu with registers.tr2 := value % 2 ^ 32 }
  | .TR3 => .ok { cpu with registers.tr3 := value % 2 ^ 32 }
  | .TR4 => .ok { cpu with registers.tr4 := value % 2 ^ 32 }
  | .TR5 => .ok { cpu with registers.tr5 := value % 2 ^ 32 }
  | .TR6 => .ok { cpu with registers.tr6 := value % 2 ^ 32 }
  | .TR7 => .ok { cpu with registers.tr7 := value % 2 ^ 32 }
  | r => .error (.UnimplementedRegister r)

/-- `set_register` followed by `get_register_u64` on the same name. -/
def Cpu.register_roundtrip (cpu : Cpu) (r : Reg) (v : Nat) : Except CpuError Nat :=
  match cpu.set_register r v with
  | .ok cpu' => cpu'.get_register_u64 r
  | .error e => .error e

/-- C2 (counterexample): `RSP` has declared width 8, and 1024 is
representable in 8 bytes, yet setting `RSP` to 1024 and reading it back
yields `1024 % 1024 = 0`, because `set_register` rebuilds the stack pointer
modulo the stack capacity. -/
theorem register_roundtrip_counterexample :
    Cpu.register_roundtrip Cpu.init Reg.RSP 1024 = .ok 0 ∧
      (1024 : Nat) < 2 ^ (8 * Reg.RSP.size) ∧ (0 : Nat) ≠ 1024 := by
  refine ⟨rfl, by decide, by decide⟩

/-- C2 (amended): for every supported register name and every value
representable in the register's declared width, `set_register` followed by
`get_register_u64` yields the value back — except through the
stack-pointer-backed names, which yield the value reduced modulo the stack
capacity (so the original claim fails only for `sp`/`esp`/`rsp` with values
at or above 1024). -/
theorem register_roundtrip_ok (cpu : Cpu) (r : Reg) (v : Nat)
    (hr : r ≠ Reg.other) (hv : v < 2 ^ (8 * r.size)) :
    cpu.register_roundtrip r v =
      .ok (if r.is_sp_backed then v % STACK_SIZE else v) := by
  cases r <;>
    simp_all [Cpu.register_roundtrip, Cpu.set_register, Cpu.get_register_u64,
      Reg.is_sp_backed, Reg.size, StackPointer.new, STACK_SIZE]

/-- Witness for C2's amended theorem: `RBX` round-trips the value 7. -/
theorem register_roundtrip_ok_witness :
    Cpu.register_roundtrip Cpu.init Reg.RBX 7 = .ok 7 := by
  have h := register_roundtrip_ok Cpu.init Reg.RBX 7 (by decide) (by decide)
  simpa using h

/-- The 8-byte alignment padding computed by both `push_stack_value` and
`pop_stack_value`: bytes needed to round the length up to a multiple of 8. -/
def alignment (len : Nat) : Nat :=
  if len % 8 ≠ 0 then 8 - len % 8 else 0

/-- One iteration of the `push_stack_value` write loop: decrement `rsp` by
one, then store the byte at the new offset. -/
def Cpu.pushOne (cpu : Cpu) (x : Nat) : Cpu :=
  let rsp := cpu.registers.rsp.subU64 1
  { cpu with registers.rsp := rsp, stack := cpu.stack.set rsp.pointer x }

/-- The `push_stack_value` write loop over an already-reversed byte list. -/
def Cpu.pushBytes (cpu : Cpu) : List Nat → Cpu
  | [] => cpu
  | x :: xs => (cpu.pushOne x).pushBytes xs

/-- `Cpu::push_stack_value` (src/cpu/mod.rs lines 82-105): overflow guard,
alignment decrement, then the bytes written in reverse order, each after a
one-byte decrement of `rsp`. -/
def Cpu.push_stack_value (cpu : Cpu) (value : List Nat) : Except CpuError Cpu :=
  if value.length > cpu.stack.length then .error .StackOverflowWrite
  else
    let cpu' :=
      { cpu with registers.rsp := cpu.registers.rsp.subU64 (alignment value.length) }
    .ok (cpu'.pushBytes value.reverse)

/-- The `pop_stack_value` read loop: read the byte at `rsp`, then advance
`rsp` by one, `n` times. -/
def Cpu.popBytes (cpu : Cpu) : Nat → Cpu × List Nat
  | 0 => (cpu, [])
  | n + 1 =>
    let x := cpu.stack.getD cpu.registers.rsp.pointer 0
    let cpu' := { cpu with registers.rsp := cpu.registers.rsp.addU64 1 }
    let r := cpu'.popBytes n
    (r.1, x :: r.2)

/-- `Cpu::pop_stack_value` (src/cpu/mod.rs lines 107-131): overflow guard,
the read loop, then the alignment advance of `rsp`. -/
def Cpu.pop_stack_value (cpu : Cpu) (size : Nat) : Except CpuError (Cpu × List Nat) :=
  if size > cpu.stack.length then .error .StackOverflowRead
  else
    let r := cpu.popBytes size
    .ok ({ r.1 with registers.rsp := r.1.registers.rsp.addU64 (alignment size) }, r.2)

theorem alignment_le (n : Nat) : alignment n ≤ 8 := by
  simp only [alignment]; split <;> omega

theorem getD_set_self (l : List Nat) (i x : Nat) (h : i < l.length) :
    (l.set i x).getD i 0 = x := by
  rw [List.getD_eq_getElem _ _ (by simpa using h)]
  exact List.getElem_set_self _

theorem getD_set_ne (l : List Nat) (i j x : Nat) (h : i ≠ j) :
    (l.set i x).getD j 0 = l.getD j 0 := by
  rcases Nat.lt_or_ge j l.length with hj | hj
  · rw [List.getD_eq_getElem _ _ (by simpa using hj), List.getD_eq_getElem _ _ hj]
    exact List.getElem_set_ne h _
  · rw [List.getD_eq_default _ _ (by simpa using hj), List.getD_eq_default _ _ hj]

theorem getD_reverse (b : List Nat) (i : Nat) (h : i < b.length) :
    b.reverse.getD (b.length - 1 - i) 0 = b.getD i 0 := by
  have h1 : b.length - 1 - (b.length - 1 - i) = i := by omega
  rw [List.getD_eq_getElem _ _ (by simp; omega), List.getD_eq_getElem _ _ h,
    List.getElem_reverse]
  simp only [h1]

/-- Pointer form of `subU64` at capacity 1024 for amounts up to 1024. -/
theorem subU64_1024 (sp : StackPointer) (x : Nat)
    (hc : sp.stack_size = 1024) (hp : sp.pointer < 1024) (hx : x ≤ 1024) :
    sp.subU64 x = ⟨(sp.pointer + (1024 - x)) % 1024, 1024⟩ := by
  obtain ⟨p, s⟩ := sp
  simp only at hc hp; subst hc
  simp only [StackPointer.subU64, StackPointer.new]
  split <;> (simp only [StackPointer.mk.injEq]; exact ⟨by omega, trivial⟩)

/-- Pointer form of `addU64` at capacity 1024. -/
theorem addU64_1024 (sp : StackPointer) (x : Nat)
    (hc : sp.stack_size = 1024) :
    sp.addU64 x = ⟨(sp.pointer + x) % 1024, 1024⟩ := by
  obtain ⟨p, s⟩ := sp
  simp only at hc; subst hc
  simp only [StackPointer.addU64, StackPointer.new, StackPointer.mk.injEq]
  exact ⟨by omega, trivial⟩

/-- Effect of one push-loop iteration on the machine state. -/
theorem pushOne_spec (cpu : Cpu) (x : Nat)
    (hs : cpu.stack.length = 1024) (hc : cpu.registers.rsp.stack_size = 1024)
    (hp : cpu.registers.rsp.pointer < 1024) :
    (cpu.pushOne x).registers.rsp =
        ⟨(cpu.registers.rsp.pointer + 1023) % 1024, 1024⟩ ∧
      (cpu.pushOne x).stack =
        cpu.stack.set ((cpu.registers.rsp.pointer + 1023) % 1024) x := by
  have hsub : cpu.registers.rsp.subU64 1 =
      ⟨(cpu.registers.rsp.pointer + 1023) % 1024, 1024⟩ := by
    rw [subU64_1024 _ _ hc hp (by omega)]
  constructor
  · simp [Cpu.pushOne, hsub]
  · simp [Cpu.pushOne, hsub]

/-- The push loop keeps the stack length and moves `rsp` back by one slot
per byte (modulo the capacity). -/
theorem pushBytes_rsp (m : List Nat) : ∀ (cpu : Cpu),
    cpu.stack.length = 1024 → cpu.registers.rsp.stack_size = 1024 →
    cpu.registers.rsp.pointer < 1024 →
    (cpu.pushBytes m).stack.length = 1024 ∧
      (cpu.pushBytes m).registers.rsp =
        ⟨(cpu.registers.rsp.pointer + 1023 * m.length) % 1024, 1024⟩ := by
  induction m with
  | nil =>
    intro cpu hs hc hp
    refine ⟨hs, ?_⟩
    have : (cpu.registers.rsp.pointer + 1023 * ([] : List Nat).length) % 1024 =
        cpu.registers.rsp.pointer := by simp; omega
    rw [Cpu.pushBytes, this, ← hc]
  | cons x xs ih =>
    intro cpu hs hc hp
    obtain ⟨h1, h2⟩ := pushOne_spec cpu x hs hc hp
    have hs₁ : (cpu.pushOne x).stack.length = 1024 := by
      rw [h2, List.length_set, hs]
    have hc₁ : (cpu.pushOne x).registers.rsp.stack_size = 1024 := by rw [h1]
    have hp₁ : (cpu.pushOne x).registers.rsp.pointer < 1024 := by
      rw [h1]; exact Nat.mod_lt _ (by omega)
    obtain ⟨ihl, ihr⟩ := ih (cpu.pushOne x) hs₁ hc₁ hp₁
    rw [Cpu.pushBytes]
    refine ⟨ihl, ?_⟩
    rw [ihr, h1]
    simp only [StackPointer.mk.injEq, List.length_cons]
    exact ⟨by omega, trivial⟩

/-- Frame property of the push loop: stack cells away from the written
window are untouched. -/
theorem pushBytes_frame (m : List Nat) : ∀ (cpu : Cpu),
    cpu.stack.length = 1024 → cpu.registers.rsp.stack_size = 1024 →
    cpu.registers.rsp.pointer < 1024 → m.length ≤ 1024 →
    ∀ p, (∀ j, j < m.length →
        p ≠ (cpu.registers.rsp.pointer + 1023 * (j + 1)) % 1024) →
      (cpu.pushBytes m).stack.getD p 0 = cpu.stack.getD p 0 := by
  induction m with
  | nil => intro cpu _ _ _ _ p _; rw [Cpu.pushBytes]
  | cons x xs ih =>
    intro cpu hs hc hp hlen p hout
    obtain ⟨h1, h2⟩ := pushOne_spec cpu x hs hc hp
    have hs₁ : (cpu.pushOne x).stack.length = 1024 := by
      rw [h2, List.length_set, hs]
    have hc₁ : (cpu.pushOne x).registers.rsp.stack_size = 1024 := by rw [h1]
    have hp₁ : (cpu.pushOne x).registers.rsp.pointer < 1024 := by
      rw [h1]; exact Nat.mod_lt _ (by omega)
    rw [Cpu.pushBytes]
    have hstep : (cpu.pushBytes (x :: xs)).stack = ((cpu.pushOne x).pushBytes xs).stack := by
      rw [Cpu.pushBytes]
    have hrec := ih (cpu.pushOne x) hs₁ hc₁ hp₁ (by simpa using Nat.le_of_succ_le hlen) p ?_
    · rw [hrec, h2]
      exact getD_set_ne _ _ _ _ (fun hcontra => hout 0 (by simp) (by omega))
    · intro j hj
      have := hout (j + 1) (by simpa using Nat.succ_lt_succ hj)
      rw [h1]
      simp only
      intro hcontra
      apply this
      rw [hcontra]
      omega

/-- Read-back property of the push loop: the byte at index `j` of the
pushed (already-reversed) list is found `j + 1` slots below the starting
offset. -/
theorem pushBytes_read (m : List Nat) : ∀ (cpu : Cpu),
    cpu.stack.length = 1024 → cpu.registers.rsp.stack_size = 1024 →
    cpu.registers.rsp.pointer < 1024 → m.length ≤ 1024 →
    ∀ j, j < m.length →
      (cpu.pushBytes m).stack.getD
          ((cpu.registers.rsp.pointer + 1023 * (j + 1)) % 1024) 0 =
        m.getD j 0 := by
  induction m with
  | nil => intro cpu _ _ _ _ j hj; simp at hj
  | cons x xs ih =>
    intro cpu hs hc hp hlen j hj
    obtain ⟨h1, h2⟩ := pushOne_spec cpu x hs hc hp
    have hs₁ : (cpu.pushOne x).stack.length = 1024 := by
      rw [h2, List.length_set, hs]
    have hc₁ : (cpu.pushOne x).registers.rsp.stack_size = 1024 := by rw [h1]
    have hp₁ : (cpu.pushOne x).registers.rsp.pointer < 1024 := by
      rw [h1]; exact Nat.mod_lt _ (by omega)
    have hxs : xs.length ≤ 1024 := by simp at hlen; omega
    rw [Cpu.pushBytes]
    match j with
    | 0 =>
      have hfr := pushBytes_frame xs (cpu.pushOne x) hs₁ hc₁ hp₁ hxs
        ((cpu.registers.rsp.pointer + 1023 * (0 + 1)) % 1024) ?_
      · rw [hfr, h2]
        have hidx : (cpu.registers.rsp.pointer + 1023 * (0 + 1)) % 1024 =
            (cpu.registers.rsp.pointer + 1023) % 1024 := by norm_num
        rw [hidx, getD_set_self _ _ _ (by rw [hs]; exact Nat.mod_lt _ (by omega))]
        simp
      · intro k hk
        rw [h1]
        simp only
        intro hcontra
        have hk1 : k + 1 ≤ 1023 := by simp at hlen; omega
        omega
    | j + 1 =>
      have hrec := ih (cpu.pushOne x) hs₁ hc₁ hp₁ hxs j (by simp at hj; omega)
      rw [h1] at hrec
      simp only at hrec
      have hpos : (cpu.registers.rsp.pointer + 1023 * (j + 1 + 1)) % 1024 =
          ((cpu.registers.rsp.pointer + 1023) % 1024 + 1023 * (j + 1)) % 1024 := by
        omega
      rw [hpos, hrec, List.getD_cons_succ]

/-- The pop loop leaves the stack untouched, advances `rsp` by one slot per
byte, and returns the bytes at successive offsets from the starting
position. -/
theorem popBytes_spec (n : Nat) : ∀ (cpu : Cpu),
    cpu.stack.length = 1024 → cpu.registers.rsp.stack_size = 1024 →
    cpu.registers.rsp.pointer < 1024 →
    (cpu.popBytes n).1.stack = cpu.stack ∧
      (cpu.popBytes n).1.registers.rsp =
        ⟨(cpu.registers.rsp.pointer + n) % 1024, 1024⟩ ∧
      (cpu.popBytes n).2.length = n ∧
      (∀ i, i < n → (cpu.popBytes n).2.getD i 0 =
        cpu.stack.getD ((cpu.registers.rsp.pointer + i) % 1024) 0) := by
  induction n with
  | zero =>
    intro cpu hs hc hp
    refine ⟨rfl, ?_, rfl, by intro i hi; omega⟩
    have hz : (cpu.registers.rsp.pointer + 0) % 1024 = cpu.registers.rsp.pointer := by
      omega
    rw [Cpu.popBytes, hz, ← hc]
  | succ n ih =>
    intro cpu hs hc hp
    have ha : cpu.registers.rsp.addU64 1 =
        ⟨(cpu.registers.rsp.pointer + 1) % 1024, 1024⟩ := addU64_1024 _ _ hc
    have hs' : ({ cpu with registers.rsp :=
        cpu.registers.rsp.addU64 1 } : Cpu).stack.length = 1024 := hs
    have hc' : ({ cpu with registers.rsp :=
        cpu.registers.rsp.addU64 1 } : Cpu).registers.rsp.stack_size = 1024 := by
      show (cpu.registers.rsp.addU64 1).stack_size = 1024
      rw [ha]
    have hp' : ({ cpu with registers.rsp :=
        cpu.registers.rsp.addU64 1 } : Cpu).registers.rsp.pointer < 1024 := by
      show (cpu.registers.rsp.addU64 1).pointer < 1024
      rw [ha]
      exact Nat.mod_lt _ (by omega)
    obtain ⟨i1, i2, i3, i4⟩ :=
      ih ({ cpu with registers.rsp := cpu.registers.rsp.addU64 1 } : Cpu) hs' hc' hp'
    refine ⟨i1, ?_, ?_, ?_⟩
    · rw [Cpu.popBytes]
      show (({ cpu with registers.rsp :=
          cpu.registers.rsp.addU64 1 } : Cpu).popBytes n).1.registers.rsp = _
      rw [i2]
      show (⟨((cpu.registers.rsp.addU64 1).pointer + n) % 1024, 1024⟩ : StackPointer) = _
      rw [ha]
      simp only [StackPointer.mk.injEq]
      exact ⟨by omega, trivial⟩
    · rw [Cpu.popBytes]
      show (_ :: (({ cpu with registers.rsp :=
          cpu.registers.rsp.addU64 1 } : Cpu).popBytes n).2).length = n + 1
      rw [List.length_cons, i3]
    · intro i hi
      rw [Cpu.popBytes]
      match i with
      | 0 =>
        show cpu.stack.getD cpu.registers.rsp.pointer 0 =
          cpu.stack.getD ((cpu.registers.rsp.pointer + 0) % 1024) 0
        have hz : (cpu.registers.rsp.pointer + 0) % 1024 =
            cpu.registers.rsp.pointer := by omega
        rw [hz]
      | i + 1 =>
        show ((({ cpu with registers.rsp :=
            cpu.registers.rsp.addU64 1 } : Cpu).popBytes n).2).getD i 0 = _
        rw [i4 i (by omega)]
        show cpu.stack.getD (((cpu.registers.rsp.addU64 1).pointer + i) % 1024) 0 = _
        rw [ha]
        show cpu.stack.getD (((cpu.registers.rsp.pointer + 1) % 1024 + i) % 1024) 0 = _
        have hz : ((cpu.registers.rsp.pointer + 1) % 1024 + i) % 1024 =
            (cpu.registers.rsp.pointer + (i + 1)) % 1024 := by omega
        rw [hz]

/-- C1: pushing a byte sequence of length at most the stack capacity and
then popping the same length succeeds, returns exactly the original bytes
in order, and restores `rsp` to its pre-push value. -/
theorem push_pop_roundtrip (cpu : Cpu) (b : List Nat)
    (hlen : b.length ≤ STACK_SIZE)
    (hstack : cpu.stack.length = STACK_SIZE)
    (hcap : cpu.registers.rsp.stack_size = STACK_SIZE)
    (hptr : cpu.registers.rsp.pointer < STACK_SIZE) :
    ∃ cpu₁ cpu₂, cpu.push_stack_value b = .ok cpu₁ ∧
      cpu₁.pop_stack_value b.length = .ok (cpu₂, b) ∧
      cpu₂.registers.rsp = cpu.registers.rsp := by
  simp only [STACK_SIZE] at hlen hstack hcap hptr
  have hal : alignment b.length ≤ 8 := alignment_le _
  have hsub := subU64_1024 cpu.registers.rsp (alignment b.length) hcap hptr (by omega)
  have hpush : cpu.push_stack_value b =
      .ok (({ cpu with registers.rsp := ⟨(cpu.registers.rsp.pointer +
        (1024 - alignment b.length)) % 1024, 1024⟩ } : Cpu).pushBytes b.reverse) := by
    simp only [Cpu.push_stack_value]
    rw [if_neg (by omega), hsub]
  set o := cpu.registers.rsp.pointer with ho
  set al := alignment b.length with hal2
  set cpuA : Cpu :=
    { cpu with registers.rsp := ⟨(o + (1024 - al)) % 1024, 1024⟩ } with hcpuA
  have hsA : cpuA.stack.length = 1024 := hstack
  have hcA : cpuA.registers.rsp.stack_size = 1024 := rfl
  have hpA : cpuA.registers.rsp.pointer < 1024 := Nat.mod_lt _ (by omega)
  have hrevlen : b.reverse.length ≤ 1024 := by simpa using hlen
  obtain ⟨hL, hR⟩ := pushBytes_rsp b.reverse cpuA hsA hcA hpA
  have hoA : cpuA.registers.rsp.pointer = (o + (1024 - al)) % 1024 := rfl
  set cpuB := cpuA.pushBytes b.reverse with hcpuB
  have hRB : cpuB.registers.rsp =
      ⟨((o + (1024 - al)) % 1024 + 1023 * b.length) % 1024, 1024⟩ := by
    rw [hR, hoA, List.length_reverse]
  have hpB : cpuB.registers.rsp.pointer < 1024 := by
    rw [hRB]; exact Nat.mod_lt _ (by omega)
  have hcB : cpuB.registers.rsp.stack_size = 1024 := by rw [hRB]
  obtain ⟨p1, p2, p3, p4⟩ := popBytes_spec b.length cpuB hL hcB hpB
  have hpop : cpuB.pop_stack_value b.length =
      .ok ({ (cpuB.popBytes b.length).1 with registers.rsp :=
              (cpuB.popBytes b.length).1.registers.rsp.addU64 al },
            (cpuB.popBytes b.length).2) := by
    simp only [Cpu.pop_stack_value]
    rw [if_neg (by simp only [hL]; omega)]
  have hbytes : (cpuB.popBytes b.length).2 = b := by
    apply List.ext_getElem (by rw [p3])
    intro i h1 h2
    have hi : i < b.length := h2
    rw [← List.getD_eq_getElem _ 0 h1, ← List.getD_eq_getElem _ 0 h2]
    rw [p4 i hi]
    have hread := pushBytes_read b.reverse cpuA hsA hcA hpA hrevlen (b.length - 1 - i)
      (by rw [List.length_reverse]; omega)
    rw [hoA] at hread
    rw [getD_reverse b i hi] at hread
    have hidx : (cpuB.registers.rsp.pointer + i) % 1024 =
        ((o + (1024 - al)) % 1024 + 1023 * (b.length - 1 - i + 1)) % 1024 := by
      rw [hRB]; show ((_ : Nat) % 1024 + i) % 1024 = _; omega
    rw [hidx, hread]
  have hcpu_rsp : cpu.registers.rsp = ⟨o, 1024⟩ := by rw [← hcap]
  have hrsp : ({ (cpuB.popBytes b.length).1 with registers.rsp :=
      (cpuB.popBytes b.length).1.registers.rsp.addU64 al } : Cpu).registers.rsp =
      cpu.registers.rsp := by
    show (cpuB.popBytes b.length).1.registers.rsp.addU64 al = cpu.registers.rsp
    rw [addU64_1024 _ _ (by rw [p2]), hcpu_rsp]
    simp only [StackPointer.mk.injEq]
    refine ⟨?_, trivial⟩
    rw [p2]
    show ((cpuB.registers.rsp.pointer + b.length) % 1024 + al) % 1024 = o
    rw [hRB]
    show ((((_ : Nat) % 1024 + 1023 * b.length) % 1024 + b.length) % 1024 + al) % 1024 = o
    omega
  refine ⟨cpuB, _, hpush, ?_, hrsp⟩
  rw [hpop, hbytes]

/-- Witness for C1: round-trip of the bytes `[1, 2, 3]` on the freshly
initialized CPU. -/
theorem push_pop_roundtrip_witness :
    ∃ cpu₁ cpu₂, Cpu.init.push_stack_value [1, 2, 3] = .ok cpu₁ ∧
      cpu₁.pop_stack_value ([1, 2, 3] : List Nat).length = .ok (cpu₂, [1, 2, 3]) ∧
      cpu₂.registers.rsp = Cpu.init.registers.rsp := by
  exact push_pop_roundtrip Cpu.init [1, 2, 3] (by decide)
    (by simp [Cpu.init]) (by decide) (by decide)

/-- Opaque stand-in for `goblin::error::Error`, the container parser's own
error type (external library). -/
inductive GoblinError where
  | parseError
deriving Repr, DecidableEq

/-- `program::error::Error` from src/program/error.rs. -/
inductive ProgramError where
  | Cpu (e : CpuError)
  | Goblin (e : GoblinError)
  | Iced
  | FromUtf8Error
  | UnimplementedInstructionPointerOutsideProgramSpace
  | UnimplementedSyscall (number : Nat)
  | UnimplementedFileDescriptor (fd : Nat)
  | UnimplementedBinaryFileFormat
  | ProgramDidNotExit
  | ElfLoadHeaderMissing
  | PeOptionalHeaderMissing
  | MachOLoadCommandMissing
  | MachFatNoX86
deriving Repr, DecidableEq

/-- `Execution` from src/program/mod.rs.  The captured output strings are
kept as the code-point lists produced by the UTF-8 decoder. -/
structure Execution where
  exit_code : Nat
  stdout : List Nat
  stderr : List Nat
deriving Repr, DecidableEq

/-- The write-syscall read loop: `count` bytes starting at the scratch
cursor, which advances by one per byte (src/program/mod.rs lines 35-39). -/
def buildWriteBuf (cpu : Cpu) : StackPointer → Nat → List Nat
  | _, 0 => []
  | ptr, n + 1 => cpu.stack.getD ptr.pointer 0 :: buildWriteBuf cpu (ptr.addU64 1) n

/-- `handle_syscall` (src/program/mod.rs lines 25-66), in state-passing
form: the mutable borrows of the Rust signature become the returned
`(cpu, exit_code, stdout, stderr)` tuple.  `from_utf8` stands for
`String::from_utf8`; `none` models its `Err`, which the source propagates
as `FromUtf8Error`. -/
def handle_syscall (from_utf8 : List Nat → Option (List Nat)) (cpu : Cpu)
    (exit_code : Option Nat) (stdout stderr : List Nat) :
    Except ProgramError (Cpu × Option Nat × List Nat × List Nat) :=
  match cpu.registers.rax with
  | 0x1 =>
    let count := cpu.registers.rdx
    if count > cpu.stack.length then .error (.Cpu .StackOverflowRead)
    else
      let buf := buildWriteBuf cpu
        (StackPointer.new cpu.registers.rsi cpu.stack.length) count
      match from_utf8 buf with
      | none => .error .FromUtf8Error
      | some buf_str =>
        match cpu.registers.rdi with
        | 0x1 => .ok (cpu, exit_code, stdout ++ buf_str, stderr)
        | 0x2 => .ok (cpu, exit_code, stdout, stderr ++ buf_str)
        | fd => .error (.UnimplementedFileDescriptor fd)
  | 0x3c => .ok (cpu, some cpu.registers.rdi, stdout, stderr)
  | number => .error (.UnimplementedSyscall number)

/-- C8: a write syscall whose count fits the stack and whose bytes decode
as valid UTF-8 appends the decoded text to stdout for descriptor 1, to
stderr for descriptor 2, and fails `UnimplementedFileDescriptor` carrying
the descriptor for any other value. -/
theorem write_syscall_dispatch (from_utf8 : List Nat → Option (List Nat))
    (cpu : Cpu) (exit_code : Option Nat) (stdout stderr s : List Nat)
    (hrax : cpu.registers.rax = 0x1)
    (hcount : cpu.registers.rdx ≤ cpu.stack.length)
    (hutf : from_utf8 (buildWriteBuf cpu
      (StackPointer.new cpu.registers.rsi cpu.stack.length)
      cpu.registers.rdx) = some s) :
    (cpu.registers.rdi = 1 →
      handle_syscall from_utf8 cpu exit_code stdout stderr =
        .ok (cpu, exit_code, stdout ++ s, stderr)) ∧
    (cpu.registers.rdi = 2 →
      handle_syscall from_utf8 cpu exit_code stdout stderr =
        .ok (cpu, exit_code, stdout, stderr ++ s)) ∧
    (cpu.registers.rdi ≠ 1 → cpu.registers.rdi ≠ 2 →
      handle_syscall from_utf8 cpu exit_code stdout stderr =
        .error (.UnimplementedFileDescriptor cpu.registers.rdi)) := by
  refine ⟨?_, ?_, ?_⟩ <;>
    simp only [handle_syscall, hrax] <;>
    rw [if_neg (by omega)] <;>
    simp only [hutf]
  · intro h1; rw [h1]
  · intro h2; rw [h2]
  · intro h1 h2
    split
    · exact absurd (by assumption) h1
    · exact absurd (by assumption) h2
    · rfl

/-- Witness for C8 at a concrete state: rax 1, rdi 1, rdx 0 on the fresh
CPU, with a decoder accepting the empty buffer. -/
theorem write_syscall_dispatch_witness :
    handle_syscall (fun l => some l)
        ({ Cpu.init with registers.rax := 1, registers.rdi := 1 } : Cpu)
        none [] [] = .ok
          (({ Cpu.init with registers.rax := 1, registers.rdi := 1 } : Cpu),
            none, ([] : List Nat) ++ [], []) := by
  exact (write_syscall_dispatch (fun l => some l)
    ({ Cpu.init with registers.rax := 1, registers.rdi := 1 } : Cpu) none [] [] []
    rfl (by simp [Cpu.init]) rfl).1 rfl

/-- C9: a write syscall that returns `Ok` reads the buffer through a fresh
scratch `StackPointer` and leaves the whole CPU state unchanged: same
`rsp`, same register file, same stack bytes. -/
theorem write_syscall_frame (from_utf8 : List Nat → Option (List Nat))
    (cpu cpu' : Cpu) (exit_code e' : Option Nat)
    (stdout stderr o' er' : List Nat)
    (hrax : cpu.registers.rax = 0x1)
    (h : handle_syscall from_utf8 cpu exit_code stdout stderr =
      .ok (cpu', e', o', er')) :
    cpu' = cpu ∧ cpu'.registers.rsp = cpu.registers.rsp ∧
      cpu'.registers = cpu.registers ∧ cpu'.stack = cpu.stack := by
  simp only [handle_syscall, hrax] at h
  have hcpu : cpu' = cpu := by
    split at h
    · exact absurd h (by simp)
    · split at h
      · exact absurd h (by simp)
      · split at h
        · simp only [Except.ok.injEq, Prod.mk.injEq] at h
          exact h.1.symm
        · simp only [Except.ok.injEq, Prod.mk.injEq] at h
          exact h.1.symm
        · exact absurd h (by simp)
  exact ⟨hcpu, by rw [hcpu], by rw [hcpu], by rw [hcpu]⟩

/-- Witness for C9: the empty write to stdout on the fresh CPU leaves the
state unchanged. -/
theorem write_syscall_frame_witness :
    ({ Cpu.init with registers.rax := 1, registers.rdi := 1 } : Cpu) =
      ({ Cpu.init with registers.rax := 1, registers.rdi := 1 } : Cpu) ∧
    ({ Cpu.init with registers.rax := 1, registers.rdi := 1 } : Cpu).registers.rsp =
      ({ Cpu.init with registers.rax := 1, registers.rdi := 1 } : Cpu).registers.rsp ∧
    ({ Cpu.init with registers.rax := 1, registers.rdi := 1 } : Cpu).registers =
      ({ Cpu.init with registers.rax := 1, registers.rdi := 1 } : Cpu).registers ∧
    ({ Cpu.init with registers.rax := 1, registers.rdi := 1 } : Cpu).stack =
      ({ Cpu.init with registers.rax := 1, registers.rdi := 1 } : Cpu).stack := by
  exact write_syscall_frame (fun l => some l)
    ({ Cpu.init with registers.rax := 1, registers.rdi := 1 } : Cpu)
    ({ Cpu.init with registers.rax := 1, registers.rdi := 1 } : Cpu)
    none none [] [] ([] ++ []) [] rfl rfl

/-- `u64::to_le_bytes` generalized: the `n` little-endian base-256 digits
of `v`. -/
def leBytes : Nat → Nat → List Nat
  | 0, _ => []
  | n + 1, v => v % 256 :: leBytes n (v / 256)

/-- `Vec::resize(n, 0)`: truncate to `n` elements or pad with zeros. -/
def listResize (l : List Nat) (n : Nat) : List Nat :=
  if n ≤ l.length then l.take n else l ++ List.replicate (n - l.length) 0

/-- `uN::from_le_bytes`: recombine little-endian base-256 digits. -/
def fromLeBytes (l : List Nat) : Nat :=
  l.foldr (fun b acc => b + 256 * acc) 0

/-- `Cpu::push_stack_register`: read the register, take its 64-bit
little-endian bytes, resize to the register's declared width, push. -/
def Cpu.push_stack_register (cpu : Cpu) (r : Reg) : Except CpuError Cpu := do
  let v ← cpu.get_register_u64 r
  cpu.push_stack_value (listResize (leBytes 8 v) r.size)

/-- `Cpu::pop_stack_register`: pop the register's declared width, decode as
an unsigned little-endian integer (widths 1/2/4/8 only), store it. -/
def Cpu.pop_stack_register (cpu : Cpu) (r : Reg) : Except CpuError Cpu := do
  let res ← cpu.pop_stack_value r.size
  let size := res.2.length
  if size = 1 ∨ size = 2 ∨ size = 4 ∨ size = 8 then
    res.1.set_register r (fromLeBytes res.2)
  else
    .error (.UnimplementedRegisterSize size)

/-- `Cpu::execute_instruction` (src/cpu/mod.rs lines 44-74). -/
def Cpu.execute_instruction (cpu : Cpu) (instruction : Instruction) :
    Except CpuError Cpu :=
  match instruction.code with
  | .Mov_r64_imm64 =>
    cpu.set_register instruction.op0_register instruction.immediate64
  | .Mov_rm64_r64 =>
    match instruction.op0_kind with
    | .Register => do
      cpu.set_register instruction.op0_register
        (← cpu.get_register_u64 instruction.op1_register)
    | _ => .error (.UnimplementedInstruction instruction)
  | .Push_r64 => cpu.push_stack_register instruction.op0_register
  | .Pushq_imm8 => cpu.push_stack_value [instruction.immediate8 % 256]
  | .Pop_r64 => cpu.pop_stack_register instruction.op0_register
  | .Jmp_rel8_64 => .ok { cpu with registers.rip := instruction.near_branch64 }
  | .Xor_rm32_r32 =>
    match instruction.op0_kind with
    | .Register => do
      let a ← cpu.get_register_u64 instruction.op0_register
      let b ← cpu.get_register_u64 instruction.op1_register
      cpu.set_register instruction.op0_register (Nat.xor a b)
    | _ => .error (.UnimplementedInstruction instruction)
  | _ => .error (.UnimplementedInstruction instruction)

/-- The cursor of the external `iced_x86::Decoder`: current instruction
pointer and byte position in the image. -/
structure Decoder where
  ip : Nat
  position : Nat
deriving Repr, DecidableEq

/-- One `decoder.decode()` call against an abstract decode oracle `prog`
(the external iced decode tables): at a decodable position the oracle
yields the instruction and its encoded size, and the cursor advances by
that size; elsewhere decoding yields `Code::INVALID`. -/
def decodeStep (prog : Nat → Option (Instruction × Nat)) (d : Decoder) :
    Instruction × Decoder :=
  match prog d.position with
  | some (i, sz) => (i, ⟨d.ip + sz, d.position + sz⟩)
  | none => ({ code := .INVALID }, d)

/-- The body of `execute_from_x86_decoder`'s loop (src/program/mod.rs lines
82-112), with explicit fuel standing in for the unbounded Rust `loop`
(exhausted fuel reports `ProgramDidNotExit`; every claim proved below holds
for every fuel value).  `code_len` is the byte length of the decoder's
data, against which `set_position` validates; `base` is the
`relative_instruction_pointer` recorded before the loop. -/
def runLoop (from_utf8 : List Nat → Option (List Nat))
    (prog : Nat → Option (Instruction × Nat)) (code_len base : Nat) :
    Nat → Cpu → Decoder → Option Nat → List Nat → List Nat →
    Except ProgramError Execution
  | 0, _, _, _, _, _ => .error .ProgramDidNotExit
  | fuel + 1, cpu, dec, exit_code, stdout, stderr =>
    let step := decodeStep prog dec
    if step.1.code = .INVALID then .error .ProgramDidNotExit
    else
      let cpu := { cpu with registers.rip := step.2.ip }
      let dispatched :=
        if step.1.code = .Syscall then
          handle_syscall from_utf8 cpu exit_code stdout stderr
        else
          match cpu.execute_instruction step.1 with
          | .ok c => .ok (c, exit_code, stdout, stderr)
          | .error e => .error (.Cpu e)
      match dispatched with
      | .error e => .error e
      | .ok (cpu, exit_code, stdout, stderr) =>
        match exit_code with
        | some code => .ok ⟨code, stdout, stderr⟩
        | none =>
          if cpu.registers.rip ≠ step.2.ip then
            if cpu.registers.rip < base then
              .error .UnimplementedInstructionPointerOutsideProgramSpace
            else
              let rip_position := cpu.registers.rip - base
              if rip_position > code_len then
                .error .UnimplementedInstructionPointerOutsideProgramSpace
              else
                runLoop from_utf8 prog code_len base fuel cpu
                  ⟨cpu.registers.rip, rip_position⟩ exit_code stdout stderr
          else
            runLoop from_utf8 prog code_len base fuel cpu step.2
              exit_code stdout stderr

/-- `execute_from_x86_decoder` (src/program/mod.rs lines 68-124): records
the base `ip − position`, then drives the loop from a fresh CPU with no
exit code and empty output accumulators. -/
def execute_from_x86_decoder (from_utf8 : List Nat → Option (List Nat))
    (prog : Nat → Option (Instruction × Nat)) (code_len fuel : Nat)
    (dec : Decoder) : Except ProgramError Execution :=
  runLoop from_utf8 prog code_len (dec.ip - dec.position) fuel
    Cpu.init dec none [] []

/-- C6: if the decoded instruction is an unconditional near jump whose
target lies strictly below the recorded base relative-instruction-pointer,
the execution loop fails with
`UnimplementedInstructionPointerOutsideProgramSpace` instead of
continuing. -/
theorem jump_below_base_rejected (from_utf8 : List Nat → Option (List Nat))
    (prog : Nat → Option (Instruction × Nat)) (code_len base fuel : Nat)
    (cpu : Cpu) (dec : Decoder) (stdout stderr : List Nat)
    (instruction : Instruction) (sz : Nat)
    (hdec : prog dec.position = some (instruction, sz))
    (hcode : instruction.code = .Jmp_rel8_64)
    (htarget : instruction.near_branch64 < base)
    (hinv : dec.ip = base + dec.position) :
    runLoop from_utf8 prog code_len base (fuel + 1) cpu dec none stdout stderr =
      .error .UnimplementedInstructionPointerOutsideProgramSpace := by
  have hne : instruction.near_branch64 ≠ dec.ip + sz := by omega
  simp [runLoop, decodeStep, hdec, hcode, Cpu.execute_instruction, hne, htarget]

/-- Witness for C6: a one-instruction program jumping to address 5 from an
image based at 100. -/
theorem jump_below_base_rejected_witness :
    runLoop (fun l => some l)
      (fun p => if p = 0 then
          some ({ code := .Jmp_rel8_64, near_branch64 := 5 }, 2)
        else none)
      64 100 1 Cpu.init ⟨100, 0⟩ none [] [] =
      .error .UnimplementedInstructionPointerOutsideProgramSpace := by
  exact jump_below_base_rejected (fun l => some l) _ 64 100 0 Cpu.init ⟨100, 0⟩
    [] [] { code := .Jmp_rel8_64, near_branch64 := 5 } 2 rfl rfl
    (by decide) rfl

/-- `goblin::mach::cputype::CPU_TYPE_X86`. -/
def CPU_TYPE_X86 : Nat := 7

/-- `goblin::mach::cputype::CPU_TYPE_X86_64` (`CPU_TYPE_X86 | CPU_ARCH_ABI64`). -/
def CPU_TYPE_X86_64 : Nat := 0x01000007

/-- `goblin::mach::load_command::LC_MAIN`. -/
def LC_MAIN : Nat := 0x80000028

/-- `goblin::elf::program_header::PT_LOAD`. -/
def PT_LOAD : Nat := 1

/-- `usize`/`u64` range bound, for the `checked_add` overflow test. -/
def TWO64 : Nat := 2 ^ 64

/-- One parsed ELF symbol-table entry (`goblin::elf::Sym`), restricted to
the fields the source reads. -/
structure ElfSym where
  st_value : Nat
  st_name : Nat
deriving Repr, DecidableEq

/-- One parsed ELF program header, restricted to the fields the source
reads. -/
structure ElfPhdr where
  p_type : Nat
  p_vaddr : Nat
deriving Repr, DecidableEq

/-- A parsed ELF object (`goblin::elf::Elf`), restricted to the fields the
source reads; `strtab` models `elf.strtab.get_at`. -/
structure Elf where
  is_64 : Bool
  program_headers : List ElfPhdr
  e_entry : Nat
  syms : List ElfSym
  strtab : Nat → Option String

/-- One parsed PE export-directory entry (`goblin::pe::export::Export`). -/
structure PeExport where
  name : Option String
  rva : Nat
deriving Repr, DecidableEq

/-- The parts of the PE optional header the source reads. -/
structure PeOptionalHeader where
  image_base : Nat
  address_of_entry_point : Nat
deriving Repr, DecidableEq

/-- A parsed PE object, restricted to the fields the source reads. -/
structure Pe where
  is_64 : Bool
  optional_header : Option PeOptionalHeader
  exports : List PeExport
deriving Repr, DecidableEq

/-- `goblin::mach::exports::ExportInfo`, collapsed to the only distinction
the source makes: `Regular { address, .. }` versus everything else. -/
inductive ExportInfo where
  | regular (address : Nat)
  | otherInfo
deriving Repr, DecidableEq

/-- One parsed Mach-O export record. -/
structure MachExport where
  name : String
  info : ExportInfo
deriving Repr, DecidableEq

/-- `goblin::mach::load_command::CommandVariant`, collapsed to `Main`
versus everything else (carrying its raw command number). -/
inductive CommandVariant where
  | main (entryoff : Nat)
  | otherCmd (c : Nat)
deriving Repr, DecidableEq

/-- `CommandVariant::cmd()`. -/
def CommandVariant.cmd : CommandVariant → Nat
  | .main _ => LC_MAIN
  | .otherCmd c => c

/-- A parsed thin Mach-O object, restricted to the fields the source reads;
`exports` models the fallible `mach_o.exports()` call. -/
structure MachO where
  is_64 : Bool
  entry : Nat
  load_commands : List CommandVariant
  exports : Except GoblinError (List MachExport)

/-- One slice descriptor of a fat Mach-O (`goblin::mach::fat::FatArch`). -/
structure FatArch where
  cputype : Nat
  offset : Nat
  size : Nat
deriving Repr, DecidableEq

/-- The result of `goblin::Object::parse`, restricted to the cases the
source distinguishes; `unknown` covers every other recognized format. -/
inductive Object where
  | elf (e : Elf)
  | pe (p : Pe)
  | mach_binary (m : MachO)
  | mach_fat (arches : List FatArch)
  | unknown

/-- `Result::or` on `Except`: keeps the first result when it is `Ok`
(even `Ok(None)`), otherwise yields the second. -/
def resultOr {ε α : Type} : Except ε α → Except ε α → Except ε α
  | .ok v, _ => .ok v
  | .error _, r => r

/-- `MultiArch::find_cputype` over the parsed slice list: the first slice
with the given CPU type, if any. -/
def find_cputype (arches : List FatArch) (ct : Nat) :
    Except GoblinError (Option FatArch) :=
  .ok (arches.find? (fun a => a.cputype == ct))

/-- The fat-slice selection expression
`mach_fat.find_cputype(CPU_TYPE_X86).or(mach_fat.find_cputype(CPU_TYPE_X86_64))`. -/
def machFatSelect (arches : List FatArch) : Except GoblinError (Option FatArch) :=
  resultOr (find_cputype arches CPU_TYPE_X86) (find_cputype arches CPU_TYPE_X86_64)

/-- `usize::checked_add`. -/
def checked_add (a b : Nat) : Option Nat :=
  if a + b < TWO64 then some (a + b) else none

/-- `HashMap::insert` on an association-list model: replaces the value
under an existing key, otherwise appends. -/
def insertMap : List (String × Nat) → String → Nat → List (String × Nat)
  | [], k, v => [(k, v)]
  | (k', v') :: rest, k, v =>
    if k' = k then (k, v) :: rest else (k', v') :: insertMap rest k v

/-- The ELF branch of `get_exports_from_binary_slice` (src/program/mod.rs
lines 226-240): skip zero-valued symbols, unresolvable and empty names. -/
def elf_exports (e : Elf) : List (String × Nat) :=
  e.syms.foldl (fun m symbol =>
    if symbol.st_value = 0 then m
    else
      match e.strtab symbol.st_name with
      | some symbol_name =>
        if symbol_name = "" then m
        else insertMap m symbol_name symbol.st_value
      | none => m) []

/-- The PE branch of `get_exports_from_binary_slice` (lines 242-250): skip
unnamed entries only. -/
def pe_exports_map (p : Pe) : List (String × Nat) :=
  p.exports.foldl (fun m ex =>
    match ex.name with
    | some name => insertMap m name ex.rva
    | none => m) []

/-- The thin Mach-O branch of `get_exports_from_binary_slice` (lines
252-263): keep regular exports only. -/
def mach_exports_map (exps : List MachExport) : List (String × Nat) :=
  exps.foldl (fun m ex =>
    match ex.info with
    | .regular address => insertMap m ex.name address
    | .otherInfo => m) []

/-- `get_exports_from_binary_slice` (src/program/mod.rs lines 224-288).
`parse` stands for `goblin::Object::parse`.  The fuel bounds the fat-slice
recursion of the source (which recurses on `&binary[start..end]` and, on
degenerate self-referential fat containers, would not terminate); exhausted
fuel reports a parse failure, and every claim proved below holds for every
fuel value. -/
def get_exports_from_binary_slice (parse : List Nat → Except GoblinError Object) :
    Nat → List Nat → Except ProgramError (List (String × Nat))
  | 0, _ => .error (.Goblin .parseError)
  | fuel + 1, binary =>
    match parse binary with
    | .ok (.elf e) => .ok (elf_exports e)
    | .ok (.pe p) => .ok (pe_exports_map p)
    | .ok (.mach_binary mach_o) =>
      match mach_o.exports with
      | .ok exps => .ok (mach_exports_map exps)
      | .error e => .error (.Goblin e)
    | .ok (.mach_fat arches) =>
      match machFatSelect arches with
      | .ok (some fat_arch) =>
        match checked_add fat_arch.offset fat_arch.size with
        | some stop =>
          if fat_arch.offset ≥ binary.length then .error .MachFatNoX86
          else if stop > binary.length then .error .MachFatNoX86
          else
            get_exports_from_binary_slice parse fuel
              ((binary.drop fat_arch.offset).take (stop - fat_arch.offset))
        | none => .error .MachFatNoX86
      | _ => .error .MachFatNoX86
    | .ok .unknown => .error .UnimplementedBinaryFileFormat
    | .error e => .error (.Goblin e)

/-- `execute_from_binary_slice` (src/program/mod.rs lines 126-222).
`parse` stands for `goblin::Object::parse` and `prog_of` for the iced
decode tables over a given byte buffer; `loop_fuel` bounds the execution
loop and `fuel` the fat-slice recursion, as above. -/
def execute_from_binary_slice (parse : List Nat → Except GoblinError Object)
    (prog_of : List Nat → Nat → Option (Instruction × Nat))
    (from_utf8 : List Nat → Option (List Nat)) (loop_fuel : Nat) :
    Nat → List Nat → Except ProgramError Execution
  | 0, _ => .error (.Goblin .parseError)
  | fuel + 1, binary =>
    match parse binary with
    | .ok (.elf elf) =>
      let load_headers :=
        (elf.program_headers.filter (fun phdr => phdr.p_type == PT_LOAD)).insertionSort
          (fun a b => a.p_vaddr ≤ b.p_vaddr)
      match load_headers.head? with
      | some load_base_header =>
        let relative_instruction_pointer := load_base_header.p_vaddr
        let entry_point_rva := elf.e_entry
        let entry_point_addr := entry_point_rva - relative_instruction_pointer
        if entry_point_addr > binary.length then .error .Iced
        else
          execute_from_x86_decoder from_utf8 (prog_of binary) binary.length
            loop_fuel ⟨entry_point_rva, entry_point_addr⟩
      | none => .error .ElfLoadHeaderMissing
    | .ok (.pe pe) =>
      match pe.optional_header with
      | some optional_header =>
        let relative_instruction_pointer := optional_header.image_base
        let entry_point_rva := optional_header.address_of_entry_point
        let entry_point_addr := entry_point_rva - relative_instruction_pointer
        if entry_point_addr > binary.length then .error .Iced
        else
          execute_from_x86_decoder from_utf8 (prog_of binary) binary.length
            loop_fuel ⟨entry_point_rva, entry_point_addr⟩
      | none => .error .PeOptionalHeaderMissing
    | .ok (.mach_binary mach_o) =>
      match mach_o.load_commands.find? (fun cmd => cmd.cmd == LC_MAIN) with
      | some (.main entryoff) =>
        if entryoff > binary.length then .error .Iced
        else
          execute_from_x86_decoder from_utf8 (prog_of binary) binary.length
            loop_fuel ⟨mach_o.entry, entryoff⟩
      | _ => .error .MachOLoadCommandMissing
    | .ok (.mach_fat arches) =>
      match machFatSelect arches with
      | .ok (some fat_arch) =>
        match checked_add fat_arch.offset fat_arch.size with
        | some stop =>
          if fat_arch.offset ≥ binary.length then .error .MachFatNoX86
          else if stop > binary.length then .error .MachFatNoX86
          else
            execute_from_binary_slice parse prog_of from_utf8 loop_fuel fuel
              ((binary.drop fat_arch.offset).take (stop - fat_arch.offset))
        | none => .error .MachFatNoX86
      | _ => .error .MachFatNoX86
    | .ok .unknown => .error .UnimplementedBinaryFileFormat
    | .error e => .error (.Goblin e)

/-- Every entry of `insertMap m k v` is either the inserted pair or an
entry of `m`. -/
theorem insertMap_mem (m : List (String × Nat)) (k : String) (v : Nat)
    (p : String × Nat) (hp : p ∈ insertMap m k v) : p = (k, v) ∨ p ∈ m := by
  induction m with
  | nil => simpa [insertMap] using hp
  | cons q rest ih =>
    simp only [insertMap] at hp
    split at hp
    · rcases List.mem_cons.mp hp with h | h
      · exact .inl h
      · exact .inr (List.mem_cons_of_mem _ h)
    · rcases List.mem_cons.mp hp with h | h
      · exact .inr (h ▸ List.mem_cons_self _ _)
      · rcases ih h with h' | h'
        · exact .inl h'
        · exact .inr (List.mem_cons_of_mem _ h')

/-- Every entry of the ELF export fold has a non-empty key and non-zero
value. -/
theorem elf_exports_wf (e : Elf) :
    ∀ p ∈ elf_exports e, p.1 ≠ "" ∧ p.2 ≠ 0 := by
  suffices h : ∀ (syms : List ElfSym) (acc : List (String × Nat)),
      (∀ p ∈ acc, p.1 ≠ "" ∧ p.2 ≠ 0) →
      ∀ p ∈ syms.foldl (fun m symbol =>
        if symbol.st_value = 0 then m
        else
          match e.strtab symbol.st_name with
          | some symbol_name =>
            if symbol_name = "" then m
            else insertMap m symbol_name symbol.st_value
          | none => m) acc, p.1 ≠ "" ∧ p.2 ≠ 0 by
    exact h e.syms [] (by simp)
  intro syms
  induction syms with
  | nil => intro acc hacc p hp; exact hacc p hp
  | cons s rest ih =>
    intro acc hacc p hp
    rw [List.foldl_cons] at hp
    refine ih _ ?_ p hp
    intro q hq
    by_cases hv : s.st_value = 0
    · rw [if_pos hv] at hq; exact hacc q hq
    · rw [if_neg hv] at hq
      rcases hname : e.strtab s.st_name with _ | name
      · rw [hname] at hq; exact hacc q hq
      · rw [hname] at hq
        have hq2 : q ∈ (if name = "" then acc
            else insertMap acc name s.st_value) := hq
        by_cases hn : name = ""
        · rw [if_pos hn] at hq2; exact hacc q hq2
        · rw [if_neg hn] at hq2
          rcases insertMap_mem _ _ _ _ hq2 with h | h
          · rw [h]; exact ⟨hn, hv⟩
          · exact hacc q h

/-- C5 (amended, ELF part): an `Ok` export map obtained from an ELF input
has only non-empty keys and non-zero values. -/
theorem export_map_elf_wellformed (parse : List Nat → Except GoblinError Object)
    (fuel : Nat) (binary : List Nat) (e : Elf) (m : List (String × Nat))
    (hparse : parse binary = .ok (.elf e))
    (hm : get_exports_from_binary_slice parse (fuel + 1) binary = .ok m) :
    ∀ p ∈ m, p.1 ≠ "" ∧ p.2 ≠ 0 := by
  simp only [get_exports_from_binary_slice, hparse, Except.ok.injEq] at hm
  subst hm
  exact elf_exports_wf e

/-- A PE object whose export directory holds one named entry with RVA 0. -/
def peZeroRva : Pe where
  is_64 := true
  optional_header := none
  exports := [{ name := some "f", rva := 0 }]

/-- An ELF object with a single symbol `main` at address 5. -/
def elfSample : Elf where
  is_64 := true
  program_headers := []
  e_entry := 0
  syms := [{ st_value := 5, st_name := 0 }]
  strtab := fun n => if n = 0 then some "main" else none

/-- C5 (counterexample): a PE input whose export directory holds a named
entry with RVA 0 produces a map containing the value 0 — the PE branch
never filters zero values (nor empty names). -/
theorem export_map_counterexample :
    get_exports_from_binary_slice (fun _ => .ok (.pe peZeroRva)) 1 [] =
      .ok [("f", 0)] ∧
    ¬ (∀ p ∈ ([(("f" : String), (0 : Nat))] : List (String × Nat)), p.2 ≠ 0) := by
  constructor
  · rfl
  · intro h
    exact (h ("f", 0) (by simp)) rfl

/-- Witness for C5's amended theorem: an ELF with one symbol `main` at
address 5 yields the map `[("main", 5)]`, whose entries are all well
formed. -/
theorem export_map_elf_wellformed_witness :
    ((("main", 5) : String × Nat)).1 ≠ "" ∧
      ((("main", 5) : String × Nat)).2 ≠ 0 := by
  exact export_map_elf_wellformed (fun _ => .ok (.elf elfSample))
    0 [] elfSample [("main", 5)] rfl rfl ("main", 5) (by simp)

/-- C7: a fat Mach-O whose slice list contains no 32- or 64-bit x86 slice,
or whose selected slice fails the bounds validation (offset inside the
buffer, offset+size within the buffer, no overflow), makes both
`execute_from_binary_slice` and `get_exports_from_binary_slice` fail with
`MachFatNoX86`. -/
theorem mach_fat_no_x86 (parse : List Nat → Except GoblinError Object)
    (prog_of : List Nat → Nat → Option (Instruction × Nat))
    (from_utf8 : List Nat → Option (List Nat))
    (loop_fuel fuel : Nat) (binary : List Nat) (arches : List FatArch)
    (hparse : parse binary = .ok (.mach_fat arches))
    (hno : (∀ a ∈ arches, a.cputype ≠ CPU_TYPE_X86 ∧ a.cputype ≠ CPU_TYPE_X86_64) ∨
      (∃ a, machFatSelect arches = .ok (some a) ∧
        (TWO64 ≤ a.offset + a.size ∨ a.offset ≥ binary.length ∨
          a.offset + a.size > binary.length))) :
    execute_from_binary_slice parse prog_of from_utf8 loop_fuel (fuel + 1)
        binary = .error .MachFatNoX86 ∧
      get_exports_from_binary_slice parse (fuel + 1) binary =
        .error .MachFatNoX86 := by
  rcases hno with hno | ⟨a, hsel, hbad⟩
  · have hfind : arches.find? (fun a => a.cputype == CPU_TYPE_X86) = none :=
      List.find?_eq_none.mpr (fun a ha => by simpa using (hno a ha).1)
    have hsel : machFatSelect arches = .ok none := by
      simp [machFatSelect, find_cputype, resultOr, hfind]
    constructor <;>
      simp [execute_from_binary_slice, get_exports_from_binary_slice,
        hparse, hsel]
  · constructor <;>
    · simp only [execute_from_binary_slice, get_exports_from_binary_slice,
        hparse, hsel]
      rcases hbad with hov | hstart | hend
      · simp [checked_add, show ¬ (a.offset + a.size < TWO64) by omega]
      · by_cases hov2 : a.offset + a.size < TWO64
        · simp [checked_add, hov2, hstart]
        · simp [checked_add, hov2]
      · by_cases hov2 : a.offset + a.size < TWO64
        · by_cases hstart2 : a.offset ≥ binary.length
          · simp [checked_add, hov2, hstart2]
          · simp [checked_add, hov2, hstart2, hend]
        · simp [checked_add, hov2]

/-- Witness for C7: a fat container holding a single non-x86 slice
(CPU type 12) fails both entry and export resolution with `MachFatNoX86`. -/
theorem mach_fat_no_x86_witness :
    execute_from_binary_slice (fun _ => .ok (.mach_fat [⟨12, 0, 0⟩]))
        (fun _ _ => none) (fun l => some l) 1 1 [] = .error .MachFatNoX86 ∧
      get_exports_from_binary_slice (fun _ => .ok (.mach_fat [⟨12, 0, 0⟩]))
        1 [] = .error .MachFatNoX86 := by
  exact mach_fat_no_x86 (fun _ => .ok (.mach_fat [⟨12, 0, 0⟩]))
    (fun _ _ => none) (fun l => some l) 1 0 [] [⟨12, 0, 0⟩] rfl
    (.inl (by decide))
